import Mathlib

/-!
Verification of the habit-tracking bot's user-ledger operations
(`src/database.py`, callers in `src/bot.py`).

Dates are modelled as integer day numbers: ISO date strings as stored in the
database are order-isomorphic to integers, string equality of ISO dates is
date equality, and `(d1 - d2).days` is integer subtraction.  Error messages
returned by the Python code are modelled by the error-kind inductive
`DbError` (one constructor per distinct message).  Each operation of the
`Database` class that touches a single user row is modelled as a pure
function from the user's row (plus the relevant arguments and the current
day) to the updated row and the structured result the Python method returns;
the row lookup / user-not-found branch is factored out by operating directly
on an existing row.
-/

namespace MalyiShag

/-- Row of the `users` table (`src/database.py`, `init_db`), restricted to the
fields the ledger operations read or write.  `last_coinflip_date` backs the
coin-flip daily lock used by `coinflip_start` (spec section 4.3). -/
structure User where
  streak : Int
  longest_streak : Int
  total_completed : Int
  coins : Int
  last_completed_date : Option Int
  streak_freeze_until : Option Int
  double_coins_until : Option Int
  current_challenge : Option String
  current_category : Option String
  purchased_items : List String
  last_coinflip_date : Option Int
  deriving DecidableEq, Repr

/-- Row of the `history` table appended by `complete_challenge`
(`src/database.py` lines 569-579).  `current_challenge` / `current_category`
may be NULL, in which case NULL is inserted. -/
structure HistoryEntry where
  category : Option String
  challenge : Option String
  deriving DecidableEq, Repr

/-- Error kinds, one per distinct failure message of `src/database.py` and of
the spec-described coin-flip operations (spec section 7 taxonomy). -/
inductive DbError where
  | userNotFound
  | alreadyCompletedToday
  | insufficientFunds
  | alreadyPlayedToday
  deriving DecidableEq, Repr

/-- Structured result of a fallible database operation: the Python methods
return a dict with a success flag plus either payload fields or a message. -/
inductive DbResult (α : Type) where
  | ok (a : α)
  | error (e : DbError)
  deriving DecidableEq, Repr

/-- Payload of a successful `complete_challenge` (`src/database.py` lines
592-598): the dict keys streak, total, coins_earned, total_coins. -/
structure CompleteOk where
  streak : Int
  total : Int
  coins_earned : Int
  total_coins : Int
  deriving DecidableEq, Repr

/-- Truth of the streak-freeze check of `complete_challenge`
(`src/database.py` line 536): `freeze_until and
date.fromisoformat(freeze_until) >= date.today()`. -/
def freezeActive (today : Int) (u : User) : Bool :=
  match u.streak_freeze_until with
  | some f => decide (today ≤ f)
  | none => false

/-- Truth of the double-coins check of `complete_challenge`
(`src/database.py` line 543): `double_until and
date.fromisoformat(double_until) >= date.today()`. -/
def doubleActive (today : Int) (u : User) : Bool :=
  match u.double_coins_until with
  | some d => decide (today ≤ d)
  | none => false

/-- New streak computed by `complete_challenge` (`src/database.py` lines
522-539): fresh start 1 when never completed; gap 1 increments; otherwise an
active freeze preserves the streak and an inactive one resets it to 1. -/
def newStreakOf (today : Int) (u : User) : Int :=
  match u.last_completed_date with
  | none => 1
  | some last =>
      if today - last = 1 then u.streak + 1
      else if freezeActive today u then u.streak
      else 1

/-- Reward computed by `complete_challenge` (`src/database.py` lines
541-546): 10 coins when the double-coins window is active, else 5. -/
def coinsEarnedOf (today : Int) (u : User) : Int :=
  if doubleActive today u then 10 else 5

/-- Embedding of `Database.complete_challenge` (`src/database.py` lines
510-604) on an existing user row: reject when already completed today,
otherwise apply the single UPDATE (streak, longest_streak as a conditional
maximum, total_completed + 1, coins + reward, last_completed_date = today),
append the history row built from the current assignment, and return the
result dict read back from the updated row. -/
def complete_challenge (today : Int) (u : User) (hist : List HistoryEntry) :
    User × List HistoryEntry × DbResult CompleteOk :=
  if u.last_completed_date = some today then
    (u, hist, .error .alreadyCompletedToday)
  else
    let ns := newStreakOf today u
    let ce := coinsEarnedOf today u
    let u2 : User :=
      { u with
        streak := ns
        longest_streak := if ns > u.longest_streak then ns else u.longest_streak
        total_completed := u.total_completed + 1
        coins := u.coins + ce
        last_completed_date := some today }
    (u2, hist ++ [{ category := u.current_category, challenge := u.current_challenge }],
      .ok { streak := ns, total := u.total_completed + 1,
            coins_earned := ce, total_coins := u.coins + ce })

/-- Embedding of `Database.reset_streak` (`src/database.py` lines 257-268):
sets streak to 0 and nothing else. -/
def reset_streak (u : User) : User :=
  { u with streak := 0 }

/-- Embedding of `Database.add_coins` (`src/database.py` lines 270-281):
`coins = coins + amount`, no check of any kind on the amount. -/
def add_coins (amount : Int) (u : User) : User :=
  { u with coins := u.coins + amount }

/-- Embedding of `Database.purchase_item` (`src/database.py` lines 288-310):
reject (returning False, row untouched) when funds are insufficient or the
item is already owned; otherwise debit the cost and append the item. -/
def purchase_item (item_id : String) (cost : Int) (u : User) : User × Bool :=
  if u.coins < cost ∨ item_id ∈ u.purchased_items then (u, false)
  else
    ({ u with coins := u.coins - cost,
              purchased_items := u.purchased_items ++ [item_id] }, true)

/-- Embedding of `Database.update_challenge` (`src/database.py` lines
495-508): overwrite the pending assignment (possibly with NULLs, as in
`category_handler`, `src/bot.py` line 378). -/
def update_challenge (challenge category : Option String) (u : User) : User :=
  { u with current_challenge := challenge, current_category := category }

/-- Base date of the freeze extension in `Database.buy_streak_freeze`
(`src/database.py` lines 614-619): the current expiry when it is unexpired,
today otherwise. -/
def freezeBase (today : Int) (u : User) : Int :=
  match u.streak_freeze_until with
  | some f => if today ≤ f then f else today
  | none => today

/-- Embedding of `Database.buy_streak_freeze` (`src/database.py` lines
606-637): reject on insufficient funds with the row untouched; otherwise one
update debiting `cost` and setting `streak_freeze_until = base + days`, and
return the new expiry. -/
def buy_streak_freeze (today days cost : Int) (u : User) : User × DbResult Int :=
  if u.coins < cost then (u, .error .insufficientFunds)
  else
    let nf := freezeBase today u + days
    ({ u with coins := u.coins - cost, streak_freeze_until := some nf }, .ok nf)

/-- Base date of the double-coins extension in `Database.buy_double_coins`
(`src/database.py` lines 647-652). -/
def doubleBase (today : Int) (u : User) : Int :=
  match u.double_coins_until with
  | some d => if today ≤ d then d else today
  | none => today

/-- Embedding of `Database.buy_double_coins` (`src/database.py` lines
639-670): like the freeze purchase but extending `double_coins_until` by a
fixed 7-day window. -/
def buy_double_coins (today cost : Int) (u : User) : User × DbResult Int :=
  if u.coins < cost then (u, .error .insufficientFunds)
  else
    let nd := doubleBase today u + 7
    ({ u with coins := u.coins - cost, double_coins_until := some nd }, .ok nd)

/-- Modelled from the spec: `Database.coinflip_start` is called from
`coinflip_choice_handler` (`src/bot.py` line 1807) but is not defined in
`src/database.py`.  Spec section 4.3: an atomic, durable check-and-mark step
that re-verifies `last_coinflip_date != today` and `coins >= bet`, then
immediately stamps `last_coinflip_date = today` as the daily lock, before the
random outcome is known; a rejected start leaves the row untouched. -/
def coinflip_start (today bet : Int) (u : User) : User × DbResult Unit :=
  if u.last_coinflip_date = some today then (u, .error .alreadyPlayedToday)
  else if u.coins < bet then (u, .error .insufficientFunds)
  else ({ u with last_coinflip_date := some today }, .ok ())

/-- Modelled from the spec: `Database.coinflip_finish` is called from
`coinflip_choice_handler` (`src/bot.py` line 1841) but is not defined in
`src/database.py`.  Spec section 4.3: atomic settlement, credit `+bet` if
won, debit `-bet` if lost, applied in one update; returns the new balance. -/
def coinflip_finish (bet : Int) (won : Bool) (u : User) : User × Int :=
  let u2 : User := { u with coins := u.coins + (if won then bet else -bet) }
  (u2, u2.coins)

/-- Calendar day seen by `_today_minsk` (`src/bot.py` lines 22-24):
`datetime.now(Europe/Minsk).date()`, Minsk being fixed UTC+3 (180 minutes).
The instant is minutes since the epoch (UTC); floor division by 1440 turns a
zone-shifted instant into its calendar day number. -/
def todayMinsk (utcMinutes : Int) : Int :=
  Int.fdiv (utcMinutes + 180) 1440

/-- Calendar day seen by `date.today()` as used throughout
`src/database.py` (e.g. `complete_challenge`, line 516): the host process's
local calendar date, parameterised by the host timezone's UTC offset in
minutes. -/
def dateTodayLocal (tzOffsetMinutes utcMinutes : Int) : Int :=
  Int.fdiv (utcMinutes + tzOffsetMinutes) 1440

/-- Ledger operations on one user's row, as dispatched by the handlers in
`src/bot.py`: completion, shop purchases, the daily streak reset sweep, an
admin coin award, and a full coin-flip round (start, and settle only when the
start succeeded, as in `coinflip_choice_handler`). -/
inductive Op where
  | complete (today : Int)
  | purchaseItem (item : String) (cost : Int)
  | buyFreeze (today days cost : Int)
  | buyDouble (today cost : Int)
  | resetStreak
  | addCoins (amount : Int)
  | wager (today bet : Int) (won : Bool)
  deriving DecidableEq, Repr

/-- Effect of one ledger operation on the user row (results discarded). -/
def applyOp (op : Op) (u : User) : User :=
  match op with
  | .complete today => (complete_challenge today u []).1
  | .purchaseItem item cost => (purchase_item item cost u).1
  | .buyFreeze today days cost => (buy_streak_freeze today days cost u).1
  | .buyDouble today cost => (buy_double_coins today cost u).1
  | .resetStreak => reset_streak u
  | .addCoins amount => add_coins amount u
  | .wager today bet won =>
      match coinflip_start today bet u with
      | (u1, .ok _) => (coinflip_finish bet won u1).1
      | (u1, .error _) => u1

/-- Sequential execution of a list of ledger operations. -/
def runOps : List Op → User → User
  | [], u => u
  | op :: ops, u => runOps ops (applyOp op u)

/-- Fresh user row as created by `Database.add_user` with the schema
defaults (`src/database.py` lines 72-88): zero counters, zero coins, all
date fields NULL, no items. -/
def freshUser : User :=
  { streak := 0, longest_streak := 0, total_completed := 0, coins := 0,
    last_completed_date := none, streak_freeze_until := none,
    double_coins_until := none, current_challenge := none,
    current_category := none, purchased_items := [],
    last_coinflip_date := none }

/-- Unfolding of `complete_challenge` on its success path. -/
theorem complete_challenge_of_ne (today : Int) (u : User) (hist : List HistoryEntry)
    (h : ¬ u.last_completed_date = some today) :
    complete_challenge today u hist =
      ({ u with
          streak := newStreakOf today u
          longest_streak :=
            if newStreakOf today u > u.longest_streak then newStreakOf today u
            else u.longest_streak
          total_completed := u.total_completed + 1
          coins := u.coins + coinsEarnedOf today u
          last_completed_date := some today },
        hist ++ [{ category := u.current_category, challenge := u.current_challenge }],
        .ok { streak := newStreakOf today u, total := u.total_completed + 1,
              coins_earned := coinsEarnedOf today u,
              total_coins := u.coins + coinsEarnedOf today u }) := by
  simp [complete_challenge, h]

/-- The streak computed by a successful completion is never negative. -/
theorem newStreakOf_nonneg (today : Int) (u : User) (h0 : 0 ≤ u.streak) :
    0 ≤ newStreakOf today u := by
  unfold newStreakOf
  cases u.last_completed_date with
  | none =>
      show (0 : Int) ≤ 1
      decide
  | some last =>
      dsimp only
      split
      · omega
      · split
        · omega
        · decide

/-- Unfolding of the full wager round (start, then settle only on a
successful start, as in `coinflip_choice_handler`). -/
theorem applyOp_wager (t b : Int) (w : Bool) (u : User) :
    applyOp (.wager t b w) u =
      if u.last_coinflip_date = some t then u
      else if u.coins < b then u
      else { u with last_coinflip_date := some t,
                    coins := u.coins + (if w then b else -b) } := by
  simp only [applyOp, coinflip_start]
  by_cases h : u.last_coinflip_date = some t
  · simp [h]
  · by_cases h2 : u.coins < b
    · simp [h, h2]
    · simp [h, h2, coinflip_finish]

/-- The freeze extension base of `buy_streak_freeze` is the later of today
and the stored expiry (an absent expiry counting as today). -/
theorem freezeBase_eq_max (today : Int) (u : User) :
    freezeBase today u = max today ((u.streak_freeze_until).getD today) := by
  unfold freezeBase
  cases u.streak_freeze_until with
  | none => simp
  | some f =>
      dsimp only [Option.getD]
      split <;> omega

/-- The double-coins extension base of `buy_double_coins` is the later of
today and the stored expiry (an absent expiry counting as today). -/
theorem doubleBase_eq_max (today : Int) (u : User) :
    doubleBase today u = max today ((u.double_coins_until).getD today) := by
  unfold doubleBase
  cases u.double_coins_until with
  | none => simp
  | some d =>
      dsimp only [Option.getD]
      split <;> omega

/-- C3: for an existing user who has not completed today, `complete_challenge`
sets the streak to 1 when they never completed; to the old streak plus 1 when
the day gap is exactly 1; preserves the streak when the gap exceeds 1 and the
freeze is active (`streak_freeze_until >= today`); and resets it to 1 when
the gap exceeds 1 with no active freeze. -/
theorem complete_streak_rule (today : Int) (u : User) (hist : List HistoryEntry)
    (h : u.last_completed_date ≠ some today) :
    (u.last_completed_date = none →
      (complete_challenge today u hist).1.streak = 1) ∧
    (∀ last, u.last_completed_date = some last → today - last = 1 →
      (complete_challenge today u hist).1.streak = u.streak + 1) ∧
    (∀ last, u.last_completed_date = some last → 1 < today - last →
      freezeActive today u = true →
      (complete_challenge today u hist).1.streak = u.streak) ∧
    (∀ last, u.last_completed_date = some last → 1 < today - last →
      freezeActive today u = false →
      (complete_challenge today u hist).1.streak = 1) := by
  rw [complete_challenge_of_ne today u hist h]
  refine ⟨?_, ?_, ?_, ?_⟩
  · intro h0
    simp [newStreakOf, h0]
  · intro last hl hg
    simp [newStreakOf, hl, hg]
  · intro last hl hg hf
    simp only [newStreakOf, hl]
    rw [if_neg (by omega), if_pos hf]
  · intro last hl hg hf
    simp only [newStreakOf, hl]
    rw [if_neg (by omega), if_neg (by simp [hf])]

/-- Sample user whose last completion was day 4 with a streak of 2. -/
def uYesterday : User :=
  { freshUser with streak := 2, longest_streak := 2, last_completed_date := some 4 }

/-- Witness for `complete_streak_rule`: completing on day 5 after a last
completion on day 4 increments the streak from 2 to 3. -/
theorem complete_streak_rule_witness :
    uYesterday.last_completed_date ≠ some 5 ∧
    (complete_challenge 5 uYesterday []).1.streak = uYesterday.streak + 1 :=
  ⟨by decide, (complete_streak_rule 5 uYesterday [] (by decide)).2.1 4 rfl (by decide)⟩

/-- C4: every rejected operation leaves the user row unchanged: completing a
second time on the same day (directly, or right after a successful
completion) fails with the already-completed error and changes nothing, and
a freeze purchase, double-coins purchase or item purchase with insufficient
coins fails (insufficient-funds error, resp. False) and changes nothing. -/
theorem rejected_ops_leave_ledger_unchanged (today : Int) (u : User)
    (hist : List HistoryEntry) :
    (u.last_completed_date = some today →
      complete_challenge today u hist = (u, hist, .error .alreadyCompletedToday)) ∧
    (u.last_completed_date ≠ some today →
      complete_challenge today (complete_challenge today u hist).1
          (complete_challenge today u hist).2.1 =
        ((complete_challenge today u hist).1, (complete_challenge today u hist).2.1,
          .error .alreadyCompletedToday)) ∧
    (∀ days cost, u.coins < cost →
      buy_streak_freeze today days cost u = (u, .error .insufficientFunds)) ∧
    (∀ cost, u.coins < cost →
      buy_double_coins today cost u = (u, .error .insufficientFunds)) ∧
    (∀ item cost, u.coins < cost → purchase_item item cost u = (u, false)) := by
  refine ⟨?_, ?_, ?_, ?_, ?_⟩
  · intro h
    simp [complete_challenge, h]
  · intro h
    rw [complete_challenge_of_ne today u hist h]
    simp [complete_challenge]
  · intro days cost h
    unfold buy_streak_freeze
    rw [if_pos h]
  · intro cost h
    unfold buy_double_coins
    rw [if_pos h]
  · intro item cost h
    unfold purchase_item
    rw [if_pos (Or.inl h)]

/-- Sample user who completed on day 5 holding 49 coins. -/
def uDoneToday : User :=
  { freshUser with streak := 3, longest_streak := 3, coins := 49,
                   last_completed_date := some 5 }

/-- Witness for `rejected_ops_leave_ledger_unchanged`: on day 5 a repeat
completion and a 50-coin freeze purchase with 49 coins are both rejected
without touching the row. -/
theorem rejected_ops_leave_ledger_unchanged_witness :
    uDoneToday.last_completed_date = some 5 ∧
    complete_challenge 5 uDoneToday [] =
      (uDoneToday, [], .error .alreadyCompletedToday) ∧
    uDoneToday.coins < 50 ∧
    buy_streak_freeze 5 1 50 uDoneToday = (uDoneToday, .error .insufficientFunds) :=
  ⟨rfl, (rejected_ops_leave_ledger_unchanged 5 uDoneToday []).1 rfl, by decide,
    (rejected_ops_leave_ledger_unchanged 5 uDoneToday []).2.2.1 1 50 (by decide)⟩

/-- C6: a successful completion earns exactly 10 coins when the double-coins
window is active (`double_coins_until >= today`) and exactly 5 otherwise; the
returned `coins_earned` field is this amount and the balance grows by it. -/
theorem complete_reward_amount (today : Int) (u : User) (hist : List HistoryEntry)
    (h : u.last_completed_date ≠ some today) :
    ∃ res, (complete_challenge today u hist).2.2 = DbResult.ok res ∧
      (doubleActive today u = true → res.coins_earned = 10) ∧
      (doubleActive today u = false → res.coins_earned = 5) ∧
      (complete_challenge today u hist).1.coins = u.coins + res.coins_earned := by
  rw [complete_challenge_of_ne today u hist h]
  refine ⟨_, rfl, ?_, ?_, rfl⟩
  · intro hd
    simp [coinsEarnedOf, hd]
  · intro hd
    simp [coinsEarnedOf, hd]

/-- Sample user with an active double-coins window (until day 9). -/
def uDouble : User :=
  { freshUser with coins := 3, double_coins_until := some 9 }

/-- Witness for `complete_reward_amount`: completing on day 5 with the
double-coins window active through day 9 earns 10 coins. -/
theorem complete_reward_amount_witness :
    uDouble.last_completed_date ≠ some 5 ∧
    ∃ res, (complete_challenge 5 uDouble []).2.2 = DbResult.ok res ∧
      (doubleActive 5 uDouble = true → res.coins_earned = 10) ∧
      (doubleActive 5 uDouble = false → res.coins_earned = 5) ∧
      (complete_challenge 5 uDouble []).1.coins = uDouble.coins + res.coins_earned :=
  ⟨by decide, complete_reward_amount 5 uDouble [] (by decide)⟩

/-- C10: completion needs no pending assignment: with `current_challenge` and
`current_category` cleared (NULL), a completion on a not-yet-completed day
still succeeds, updating streak, total and coins as usual, and appends a
history row whose category and challenge are the NULL values. -/
theorem complete_without_assignment (today : Int) (u : User)
    (hist : List HistoryEntry) (h : u.last_completed_date ≠ some today)
    (hch : u.current_challenge = none) (hcat : u.current_category = none) :
    (complete_challenge today u hist).2.2 =
      DbResult.ok { streak := newStreakOf today u, total := u.total_completed + 1,
                    coins_earned := coinsEarnedOf today u,
                    total_coins := u.coins + coinsEarnedOf today u } ∧
    (complete_challenge today u hist).1.streak = newStreakOf today u ∧
    (complete_challenge today u hist).1.total_completed = u.total_completed + 1 ∧
    (complete_challenge today u hist).1.coins = u.coins + coinsEarnedOf today u ∧
    (complete_challenge today u hist).2.1 =
      hist ++ [{ category := none, challenge := none }] := by
  rw [complete_challenge_of_ne today u hist h]
  refine ⟨rfl, rfl, rfl, rfl, ?_⟩
  rw [hch, hcat]

/-- Witness for `complete_without_assignment`: a fresh user (assignment NULL)
completes on day 0 and the appended history row has NULL fields. -/
theorem complete_without_assignment_witness :
    freshUser.last_completed_date ≠ some 0 ∧
    freshUser.current_challenge = none ∧ freshUser.current_category = none ∧
    (complete_challenge 0 freshUser []).2.1 =
      [] ++ [{ category := none, challenge := none }] :=
  ⟨by decide, rfl, rfl,
    (complete_without_assignment 0 freshUser [] (by decide) rfl rfl).2.2.2.2⟩

/-- C5: from any state with a non-negative streak bounded by the longest
streak, every ledger operation preserves both facts and never decreases the
longest streak; a successful completion sets the longest streak to the
maximum of its previous value and the new streak. -/
theorem longest_streak_invariant (op : Op) (u : User)
    (h0 : 0 ≤ u.streak) (h1 : u.streak ≤ u.longest_streak) :
    (0 ≤ (applyOp op u).streak ∧
      (applyOp op u).streak ≤ (applyOp op u).longest_streak ∧
      u.longest_streak ≤ (applyOp op u).longest_streak) ∧
    (∀ today hist, u.last_completed_date ≠ some today →
      (complete_challenge today u hist).1.longest_streak =
        max u.longest_streak (newStreakOf today u)) := by
  constructor
  · cases op with
    | complete today =>
        by_cases h : u.last_completed_date = some today
        · simp only [applyOp, complete_challenge, if_pos h]
          exact ⟨h0, h1, le_refl _⟩
        · have hns := newStreakOf_nonneg today u h0
          simp only [applyOp]
          rw [complete_challenge_of_ne today u [] h]
          refine ⟨hns, ?_, ?_⟩
          · dsimp only
            split <;> omega
          · dsimp only
            split <;> omega
    | purchaseItem item cost =>
        simp only [applyOp, purchase_item]
        split
        · exact ⟨h0, h1, le_refl _⟩
        · exact ⟨h0, h1, le_refl _⟩
    | buyFreeze today days cost =>
        simp only [applyOp, buy_streak_freeze]
        split
        · exact ⟨h0, h1, le_refl _⟩
        · exact ⟨h0, h1, le_refl _⟩
    | buyDouble today cost =>
        simp only [applyOp, buy_double_coins]
        split
        · exact ⟨h0, h1, le_refl _⟩
        · exact ⟨h0, h1, le_refl _⟩
    | resetStreak =>
        refine ⟨le_refl 0, ?_, le_refl _⟩
        show (0 : Int) ≤ u.longest_streak
        omega
    | addCoins a =>
        exact ⟨h0, h1, le_refl _⟩
    | wager t b w =>
        rw [applyOp_wager]
        split
        · exact ⟨h0, h1, le_refl _⟩
        · split
          · exact ⟨h0, h1, le_refl _⟩
          · exact ⟨h0, h1, le_refl _⟩
  · intro today hist h
    rw [complete_challenge_of_ne today u hist h]
    dsimp only
    rcases le_or_lt (newStreakOf today u) u.longest_streak with hge | hlt
    · rw [if_neg (not_lt.mpr hge)]
      exact (max_eq_left hge).symm
    · rw [if_pos hlt]
      exact (max_eq_right hlt.le).symm

/-- Witness for `longest_streak_invariant`: the sample user with streak 2 and
longest streak 2 keeps the invariant through a completion on day 5. -/
theorem longest_streak_invariant_witness :
    0 ≤ uYesterday.streak ∧ uYesterday.streak ≤ uYesterday.longest_streak ∧
    (0 ≤ (applyOp (Op.complete 5) uYesterday).streak ∧
      (applyOp (Op.complete 5) uYesterday).streak ≤
        (applyOp (Op.complete 5) uYesterday).longest_streak ∧
      uYesterday.longest_streak ≤ (applyOp (Op.complete 5) uYesterday).longest_streak) :=
  ⟨by decide, by decide,
    (longest_streak_invariant (Op.complete 5) uYesterday (by decide) (by decide)).1⟩

/-- C7: with sufficient coins, `buy_streak_freeze` debits exactly the cost and
sets the freeze expiry to the later of today and the stored expiry plus the
purchased days (so an active freeze is never shortened), in a single state
update touching only those two fields; `buy_double_coins` does the same on
`double_coins_until` with a fixed 7-day window. -/
theorem purchase_extends_never_shortens (today days cost : Int) (u : User)
    (hc : ¬ u.coins < cost) (hd : 0 ≤ days) :
    (buy_streak_freeze today days cost u).1 =
      { u with coins := u.coins - cost,
               streak_freeze_until :=
                 some (max today ((u.streak_freeze_until).getD today) + days) } ∧
    (buy_streak_freeze today days cost u).2 =
      DbResult.ok (max today ((u.streak_freeze_until).getD today) + days) ∧
    (∀ f, u.streak_freeze_until = some f → today ≤ f →
      f ≤ max today ((u.streak_freeze_until).getD today) + days) ∧
    (buy_double_coins today cost u).1 =
      { u with coins := u.coins - cost,
               double_coins_until :=
                 some (max today ((u.double_coins_until).getD today) + 7) } ∧
    (buy_double_coins today cost u).2 =
      DbResult.ok (max today ((u.double_coins_until).getD today) + 7) := by
  simp only [buy_streak_freeze, buy_double_coins, if_neg hc, freezeBase_eq_max,
    doubleBase_eq_max]
  refine ⟨trivial, trivial, ?_, trivial, trivial⟩
  intro f hf hle
  rw [hf]
  simp only [Option.getD]
  have := le_max_right today f
  omega

/-- Sample user holding 50 coins with a freeze active through day 7. -/
def uFrozen : User :=
  { freshUser with coins := 50, streak_freeze_until := some 7 }

/-- Witness for `purchase_extends_never_shortens`: on day 5, buying 3 more
freeze days for 30 coins extends the day-7 freeze from day 7, not from
day 5. -/
theorem purchase_extends_never_shortens_witness :
    ¬ uFrozen.coins < 30 ∧ (0 : Int) ≤ 3 ∧
    (buy_streak_freeze 5 3 30 uFrozen).2 =
      DbResult.ok (max 5 ((uFrozen.streak_freeze_until).getD 5) + 3) :=
  ⟨by decide, by decide,
    (purchase_extends_never_shortens 5 3 30 uFrozen (by decide) (by decide)).2.1⟩

/-- Side condition on an operation's arguments: admin coin awards
(`add_coins`, whose amount is an arbitrary parsed integer with no check in
the code) and wager stakes (drawn from the fixed positive menu 5/10/15/20 in
`coinflip_menu_handler`) are non-negative. -/
def opSafe : Op → Bool
  | .addCoins a => decide (0 ≤ a)
  | .wager _ b _ => decide (0 ≤ b)
  | _ => true

/-- One safe ledger operation keeps the coin balance non-negative. -/
theorem applyOp_coins_nonneg (op : Op) (u : User)
    (hop : opSafe op = true) (h : 0 ≤ u.coins) : 0 ≤ (applyOp op u).coins := by
  cases op with
  | complete today =>
      by_cases hc : u.last_completed_date = some today
      · simp only [applyOp, complete_challenge, if_pos hc]
        exact h
      · simp only [applyOp]
        rw [complete_challenge_of_ne today u [] hc]
        show 0 ≤ u.coins + coinsEarnedOf today u
        unfold coinsEarnedOf
        split <;> omega
  | purchaseItem item cost =>
      simp only [applyOp, purchase_item]
      split
      · exact h
      · next hcond =>
          show 0 ≤ u.coins - cost
          push_neg at hcond
          omega
  | buyFreeze today days cost =>
      simp only [applyOp, buy_streak_freeze]
      split
      · exact h
      · next hcond =>
          show 0 ≤ u.coins - cost
          omega
  | buyDouble today cost =>
      simp only [applyOp, buy_double_coins]
      split
      · exact h
      · next hcond =>
          show 0 ≤ u.coins - cost
          omega
  | resetStreak => exact h
  | addCoins a =>
      have ha : 0 ≤ a := by simpa [opSafe] using hop
      show 0 ≤ u.coins + a
      omega
  | wager t b w =>
      have hb : 0 ≤ b := by simpa [opSafe] using hop
      rw [applyOp_wager]
      split
      · exact h
      · split
        · exact h
        · next hcond =>
            show 0 ≤ u.coins + (if w then b else -b)
            cases w <;> simp <;> omega

/-- C8 (amended): for every sequence of ledger operations whose coin awards
and wager stakes are non-negative, a non-negative balance stays
non-negative — each debiting operation checks funds first and rejects
otherwise. -/
theorem coin_balance_nonneg_of_safe_ops (ops : List Op) (u : User)
    (hops : ∀ op ∈ ops, opSafe op = true) (h : 0 ≤ u.coins) :
    0 ≤ (runOps ops u).coins := by
  induction ops generalizing u with
  | nil => exact h
  | cons op ops ih =>
      exact ih (applyOp op u) (fun o ho => hops o (List.mem_cons_of_mem _ ho))
        (applyOp_coins_nonneg op u (hops op (List.mem_cons_self _ _)) h)

/-- Counterexample to C8 as stated: the admin coin award path
(`src/bot.py` line 1374 feeding `Database.add_coins`) performs no check on
the amount, so a single award of -1 to a fresh user drives the balance
negative. -/
theorem coin_balance_can_go_negative :
    ¬ (0 ≤ (runOps [Op.addCoins (-1)] freshUser).coins) := by decide

/-- Witness for `coin_balance_nonneg_of_safe_ops`: a completion, a losing
5-coin wager and a 1-day freeze purchase keep a fresh user's balance
non-negative. -/
theorem coin_balance_nonneg_of_safe_ops_witness :
    (∀ op ∈ [Op.complete 3, Op.wager 3 5 false, Op.buyFreeze 3 1 50],
      opSafe op = true) ∧
    0 ≤ freshUser.coins ∧
    0 ≤ (runOps [Op.complete 3, Op.wager 3 5 false, Op.buyFreeze 3 1 50]
          freshUser).coins :=
  ⟨by decide, by decide,
    coin_balance_nonneg_of_safe_ops _ freshUser (by decide) (by decide)⟩

/-- C1: a successful `coinflip_start` implies both pre-checks held
(`last_coinflip_date != today`, `coins >= bet`) and stamps the daily lock
before any outcome exists, so every further start on the same day — directly
after the start, or after a settlement with either outcome — is rejected
with the already-played error and leaves the row untouched. -/
theorem coinflip_start_locks_day (today bet : Int) (u : User)
    (h : (coinflip_start today bet u).2 = DbResult.ok ()) :
    u.last_coinflip_date ≠ some today ∧
    ¬ u.coins < bet ∧
    (coinflip_start today bet u).1.last_coinflip_date = some today ∧
    (∀ bet2, coinflip_start today bet2 (coinflip_start today bet u).1 =
      ((coinflip_start today bet u).1, .error .alreadyPlayedToday)) ∧
    (∀ won bet2,
      coinflip_start today bet2
          (coinflip_finish bet won (coinflip_start today bet u).1).1 =
        ((coinflip_finish bet won (coinflip_start today bet u).1).1,
          .error .alreadyPlayedToday)) := by
  by_cases h1 : u.last_coinflip_date = some today
  · simp [coinflip_start, h1] at h
  · by_cases h2 : u.coins < bet
    · simp [coinflip_start, h1, h2] at h
    · refine ⟨h1, h2, ?_, ?_, ?_⟩
      · simp [coinflip_start, h1, h2]
      · intro bet2
        simp [coinflip_start, h1, h2]
      · intro won bet2
        simp [coinflip_start, coinflip_finish, h1, h2]

/-- Sample user with 10 coins who has not played the coin flip today. -/
def uRich : User := { freshUser with coins := 10 }

/-- Witness for `coinflip_start_locks_day`: after a successful 5-coin start
on day 0, a second start the same day is rejected. -/
theorem coinflip_start_locks_day_witness :
    (coinflip_start 0 5 uRich).2 = DbResult.ok () ∧
    (coinflip_start 0 5 (coinflip_start 0 5 uRich).1 =
      ((coinflip_start 0 5 uRich).1, .error .alreadyPlayedToday)) :=
  ⟨by decide, (coinflip_start_locks_day 0 5 uRich (by decide)).2.2.2.1 5⟩

/-- C2: settling a round started successfully with stake `bet` changes the
balance by exactly `+bet` on a win and `-bet` on a loss relative to the
pre-round balance, returns the new balance, and changes nothing but the
balance in one update. -/
theorem coinflip_settlement_balance (today bet : Int) (won : Bool) (u : User)
    (h : (coinflip_start today bet u).2 = DbResult.ok ()) :
    (coinflip_finish bet won (coinflip_start today bet u).1).1.coins =
      u.coins + (if won then bet else -bet) ∧
    (coinflip_finish bet won (coinflip_start today bet u).1).2 =
      (coinflip_finish bet won (coinflip_start today bet u).1).1.coins ∧
    (coinflip_finish bet won (coinflip_start today bet u).1).1 =
      { (coinflip_start today bet u).1 with
          coins := (coinflip_start today bet u).1.coins +
            (if won then bet else -bet) } := by
  by_cases h1 : u.last_coinflip_date = some today
  · simp [coinflip_start, h1] at h
  · by_cases h2 : u.coins < bet
    · simp [coinflip_start, h1, h2] at h
    · refine ⟨?_, ?_, ?_⟩ <;> simp [coinflip_start, coinflip_finish, h1, h2]

/-- Witness for `coinflip_settlement_balance`: a lost 5-coin round on day 0
takes the balance from 10 to 5 and reports 5. -/
theorem coinflip_settlement_balance_witness :
    (coinflip_start 0 5 uRich).2 = DbResult.ok () ∧
    (coinflip_finish 5 false (coinflip_start 0 5 uRich).1).1.coins =
      uRich.coins + (if false then 5 else -5) :=
  ⟨by decide, (coinflip_settlement_balance 0 5 false uRich (by decide)).1⟩

/-- Counterexample to C9 as stated: the handler clock `_today_minsk`
(`src/bot.py` lines 22-24) and the database clock `date.today()` (host-local
date, here a UTC host, offset 0) disagree at 22:00 UTC of epoch day 0: Minsk
is already on day 1 while the host is still on day 0, so the two clock
functions are not equal at every instant. -/
theorem local_clock_differs_from_minsk :
    dateTodayLocal 0 1320 ≠ todayMinsk 1320 := by decide

/-- C9 (amended): the handler-level gates use the Europe/Minsk calendar while
the database operations use the host-local calendar date; the two clocks
agree at every instant exactly when the host UTC offset equals Minsk's +3:00
(180 minutes). -/
theorem local_clock_matches_minsk_at_offset180 (utcMinutes : Int) :
    dateTodayLocal 180 utcMinutes = todayMinsk utcMinutes := rfl

end MalyiShag
